import Mathlib

/-!
Verification of the cross-codebase change-relevance classifier of this
repository (`server/utils/code_analyzer.py` and `detect_swift_changes.py`)
against its natural-language specification.

The Python code is shallowly embedded: pure string/list manipulations become
Lean functions on `String` / `List Char`; the filesystem and the version
control system are passed in explicitly as oracles (`FS`, `GitRepo`); code
paths that can raise a Python exception return `Except String α`.

Regular expressions are embedded at two levels of fidelity, matching the two
shapes that occur in the source:
* `re.search(rf'\b{keyword}\b', text, re.IGNORECASE)` for a literal keyword
  (no metacharacters) is embedded directly as `kwMatchL`: a case-insensitive
  literal occurrence flanked by Python word boundaries;
* the structural patterns of `analyze_code_changes` / the Kotlin declaration
  patterns of `check_kotlin_implementation` are embedded through a small
  backtracking regex engine (`RE`, `mrun`) whose constructs (literals,
  single-character classes with greedy `+`/`*`, ordered alternation, greedy
  optional groups, capture groups, word-boundary assertions) cover exactly
  the constructs those patterns use, with Python's leftmost, greedy,
  backtracking semantics.
-/

set_option maxRecDepth 100000

/-! ## Python string helpers -/

/-- Whether `t` starts with `pre` (structurally recursive so that the kernel
can evaluate it on concrete inputs, unlike `String.startsWith`). -/
def listStartsWith : List Char → List Char → Bool
  | _, [] => true
  | [], _ :: _ => false
  | a :: as, b :: bs => a = b && listStartsWith as bs

/-- Python `sub in s` (substring containment): some suffix starts with the
needle. -/
def containsSubL (t sub : List Char) : Bool :=
  match t with
  | [] => listStartsWith [] sub
  | _ :: rest => listStartsWith t sub || containsSubL rest sub

/-- Python `sub in s` on strings. -/
def containsSub (s sub : String) : Bool :=
  containsSubL s.data sub.data

/-- Python `s.startswith(pre)`. -/
def pyStartsWith (s pre : String) : Bool :=
  listStartsWith s.data pre.data

/-- Python `s.endswith(suf)`. -/
def pyEndsWith (s suf : String) : Bool :=
  listStartsWith s.data.reverse suf.data.reverse

/-- Python regex `\s` (ASCII), also the character set stripped by
`str.strip()` for ASCII input. -/
def isSpaceChar (c : Char) : Bool :=
  c = ' ' || c = '\t' || c = '\n' || c = '\r' || c = Char.ofNat 11 || c = Char.ofNat 12

/-- Python `s.strip()` (ASCII whitespace). -/
def pyStrip (s : String) : String :=
  ⟨((s.data.dropWhile isSpaceChar).reverse.dropWhile isSpaceChar).reverse⟩

/-- Worker of `strSplitOn`: split `t` on the nonempty separator `sep`,
left to right and non-overlapping; `acc` is the current piece reversed and
the fuel (initially the subject length, each step consumes at least one
character) makes the recursion structural. -/
def splitL (sep : List Char) : Nat → List Char → List Char → List (List Char)
  | _, [], acc => [acc.reverse]
  | 0, t, acc => [acc.reverse ++ t]
  | f + 1, c :: rest, acc =>
    if listStartsWith (c :: rest) sep then
      acc.reverse :: splitL sep f (rest.drop (sep.length - 1)) []
    else splitL sep f rest (c :: acc)

/-- Python `s.split(sep)` for a nonempty separator. -/
def strSplitOn (s sep : String) : List String :=
  if sep.data.isEmpty then [s]
  else (splitL sep.data s.data.length s.data []).map (fun p => ⟨p⟩)

/-- Python `str.lower()` restricted to ASCII (all inputs of interest are
ASCII; `str.lower` and `Char.toLower` agree with this on ASCII). -/
def asciiLower (c : Char) : Char :=
  if 65 ≤ c.toNat ∧ c.toNat ≤ 90 then Char.ofNat (c.toNat + 32) else c

/-- Lowercase a whole string (Python `s.lower()`). -/
def strLower (s : String) : String :=
  ⟨s.data.map asciiLower⟩

/-- `os.path.join(a, b)` for two components: an absolute second component
replaces the first; a separator is inserted only when the first component
does not already end with one. -/
def pyJoin (a b : String) : String :=
  if pyStartsWith b "/" then b
  else if a = "" || pyEndsWith a "/" then a ++ b
  else a ++ "/" ++ b

/-- Python `s.replace(old, new)` for a nonempty `old`: replace every
non-overlapping occurrence, left to right. -/
def pyReplace (s old new : String) : String :=
  if old.data.isEmpty then s
  else String.intercalate new (strSplitOn s old)

/-- `os.path.basename`: the part after the last separator. -/
def pyBasename (s : String) : String :=
  ⟨(s.data.reverse.takeWhile (fun c => c ≠ '/')).reverse⟩

/-- Python `line.split('\t', 1)[1]`: everything after the first tab. -/
def afterFirstTab (l : String) : String :=
  String.intercalate "\t" ((strSplitOn l "\t").drop 1)

/-- A single-quote character, for rendering Python `repr` of strings. -/
def squote : String := (Char.ofNat 39).toString

/-- Python `repr` of a list of strings, as used by f-string interpolation of
a `list` value. -/
def pyReprList (xs : List String) : String :=
  "[" ++ String.intercalate ", " (xs.map (fun s => squote ++ s ++ squote)) ++ "]"

/-- Worker of `pySplitWs`: whitespace-separated groups, empties dropped. -/
def wsGroups : List Char → List Char → List (List Char)
  | [], acc => if acc.isEmpty then [] else [acc.reverse]
  | c :: r, acc =>
    if isSpaceChar c then
      if acc.isEmpty then wsGroups r [] else acc.reverse :: wsGroups r []
    else wsGroups r (c :: acc)

/-- Python `str.split()` with no argument: split on whitespace runs,
dropping empty pieces. -/
def pySplitWs (s : String) : List String :=
  (wsGroups s.data []).map (fun p => ⟨p⟩)

/-- First occurrence deduplication (stands in for Python `list(set(xs))`,
whose order is hash-dependent; only used in free-text summaries that no
verified property depends on). -/
def dedupFirstAux (seen : List String) : List String → List String
  | [] => []
  | x :: xs =>
    if x ∈ seen then dedupFirstAux seen xs
    else x :: dedupFirstAux (x :: seen) xs

/-- See `dedupFirstAux`. -/
def dedupFirst (xs : List String) : List String :=
  dedupFirstAux [] xs

/-- Python `', '.join(xs)`. -/
def joinComma (xs : List String) : String :=
  String.intercalate ", " xs

/-! ## Word-boundary literal keyword matching

Embedding of `re.search(rf'\b{kw}\b', text, re.IGNORECASE)` for a literal
keyword `kw` (the keywords of `KOTLIN_RELEVANT_KEYWORDS` /
`KOTLIN_IRRELEVANT_KEYWORDS` contain no regex metacharacters). -/

/-- Python regex `\w` (ASCII): letters, digits, underscore. -/
def isWordChar (c : Char) : Bool :=
  c.isAlphanum || c = '_'

/-- Whether the character at index `i` of `t` is a word character
(out-of-range counts as non-word, as at the ends of a Python string). -/
def wordAt (t : List Char) (i : Nat) : Bool :=
  match t.get? i with
  | some c => isWordChar c
  | none => false

/-- Word-character status of the position just before index `i`
(the start of the string counts as non-word). -/
def prevWord (t : List Char) (i : Nat) : Bool :=
  match i with
  | 0 => false
  | j + 1 => wordAt t j

/-- Python regex `\b` at position `i`: the word-character status changes. -/
def boundaryB (t : List Char) (i : Nat) : Bool :=
  prevWord t i != wordAt t i

/-- The pattern `\b{kw}\b` matches `t` at position `i` (case-insensitive
literal match flanked by word boundaries). -/
def kwAt (t kw : List Char) (i : Nat) : Bool :=
  (((t.drop i).take kw.length).map asciiLower == kw.map asciiLower)
    && boundaryB t i && boundaryB t (i + kw.length)

/-- `re.search(rf'\b{kw}\b', t, re.IGNORECASE)` succeeds: some position of
`t` matches. -/
def kwMatchL (t kw : List Char) : Bool :=
  (List.range (t.length + 1)).any (fun i => kwAt t kw i)

/-! ## File relevance filter (`is_relevant_for_kotlin`)

The exclusion/inclusion tables of `code_analyzer.py`. Each Python pattern is
a regex whose only metacharacters are escaped dots, so `re.search(pat, path)`
is exactly substring containment of the unescaped literal. -/

/-- `EXCLUDE_PATTERNS` of `code_analyzer.py`, unescaped. -/
def EXCLUDE_PATTERNS : List String :=
  [".vscode/", ".git/", "Demo/", "Tests/", ".xcodeproj/", ".xcworkspace/",
   "Package.resolved", ".gitignore", "README.md", "CHANGELOG.md"]

/-- `RELEVANT_PATTERNS` of `code_analyzer.py`. -/
def RELEVANT_PATTERNS : List String :=
  ["Sources/ReachuCore/", "Sources/ReachuUI/", "Sources/ReachuDesignSystem/",
   "Sources/ReachuNetwork/"]

/-- `is_relevant_for_kotlin(file_path)`: exclusion patterns first, then
inclusion patterns, then the `Sources/` check (both of whose outcomes are
`False`, as in the source). -/
def is_relevant_for_kotlin (file_path : String) : Bool :=
  if EXCLUDE_PATTERNS.any (fun pat => containsSub file_path pat) then false
  else if RELEVANT_PATTERNS.any (fun pat => containsSub file_path pat) then true
  else if !(containsSub file_path "Sources/") then false
  else false

/-- Claim C4: `is_relevant_for_kotlin` is total (it is a Lean function into
`Bool`), returns `false` whenever any exclusion pattern matches regardless of
the inclusion patterns, and returns `true` exactly when no exclusion pattern
matches and some inclusion (portable-surface) pattern matches; in particular
a path matching no inclusion pattern yields `false`. -/
theorem C4_filter_soundness (p : String) :
    is_relevant_for_kotlin p =
      (!(EXCLUDE_PATTERNS.any (fun pat => containsSub p pat))
        && RELEVANT_PATTERNS.any (fun pat => containsSub p pat)) := by
  unfold is_relevant_for_kotlin
  cases hE : EXCLUDE_PATTERNS.any (fun pat => containsSub p pat) <;>
    cases hR : RELEVANT_PATTERNS.any (fun pat => containsSub p pat) <;>
      simp [hE, hR]

/-! ## A small backtracking regex engine

Covers exactly the constructs of the structural patterns in
`analyze_code_changes`, `extract_property_details`, `extract_function_details`
and `check_kotlin_implementation`: literal characters, single-character
classes (`\w`, `\s`, `\d`, `[^>]`, `[^)]`, `[^,\n]`) under greedy `+`/`*`,
greedy optional groups `(?:...)?`, ordered alternation `(a|b)`, capture
groups, and the word-boundary assertion `\b`. `mrun` reproduces Python's
leftmost, greedy, backtracking match; the fuel argument only bounds the
recursion depth and is chosen large enough for every input. -/

/-- Regex abstract syntax. -/
inductive RE where
  | eps : RE
  | lit : Char → RE
  | cls : (Char → Bool) → RE
  | seqr : RE → RE → RE
  | alt : RE → RE → RE
  | star : RE → RE
  | grp : Nat → RE → RE
  | bnd : RE

/-- A work item of the matcher: a regex still to match, or the pending close
of capture group `n` opened at position `start`. -/
inductive RTask where
  | re (r : RE)
  | close (n : Nat) (start : Nat)

/-- Backtracking matcher. Arguments: fuel, work list, subject, current
position, captures accumulated on the current success path (group index,
start, end). Returns the end position and captures of the first match in
backtracking order — Python's semantics for these patterns. -/
def mrun : Nat → List RTask → List Char → Nat → List (Nat × Nat × Nat) →
    Option (Nat × List (Nat × Nat × Nat))
  | 0, _, _, _, _ => none
  | _ + 1, [], _, pos, caps => some (pos, caps)
  | fuel + 1, .close n st :: k, t, pos, caps =>
    mrun fuel k t pos ((n, st, pos) :: caps)
  | fuel + 1, .re r :: k, t, pos, caps =>
    match r with
    | .eps => mrun fuel k t pos caps
    | .lit c =>
      match t.get? pos with
      | some c2 => if c2 = c then mrun fuel k t (pos + 1) caps else none
      | none => none
    | .cls p =>
      match t.get? pos with
      | some c2 => if p c2 then mrun fuel k t (pos + 1) caps else none
      | none => none
    | .seqr a b => mrun fuel (.re a :: .re b :: k) t pos caps
    | .alt a b =>
      match mrun fuel (.re a :: k) t pos caps with
      | some res => some res
      | none => mrun fuel (.re b :: k) t pos caps
    | .star r =>
      match mrun fuel (.re r :: .re (.star r) :: k) t pos caps with
      | some res => some res
      | none => mrun fuel k t pos caps
    | .grp n r => mrun fuel (.re r :: .close n pos :: k) t pos caps
    | .bnd => if boundaryB t pos then mrun fuel k t pos caps else none

/-- Fuel that bounds the matcher's recursion depth for subject `t` (the depth
is linear in the subject length plus the fixed pattern sizes). -/
def reFuel (t : List Char) : Nat :=
  8 * t.length + 800

/-- `re.search(r, t)`: try each start position left to right; report
(start, end, captures) of the first match. -/
def reSearch (r : RE) (t : List Char) :
    Option (Nat × Nat × List (Nat × Nat × Nat)) :=
  (List.range (t.length + 1)).findSome? (fun i =>
    (mrun (reFuel t) [.re r] t i []).map (fun p => (i, p.1, p.2)))

/-- Whether `re.search` succeeds. -/
def reTest (r : RE) (t : List Char) : Bool :=
  (reSearch r t).isSome

/-- The text of capture group `n` (Python `m.group(n)` for `n ≥ 1`). -/
def grpStr (t : List Char) (caps : List (Nat × Nat × Nat)) (n : Nat) :
    Option String :=
  (caps.find? (fun c => c.1 = n)).map
    (fun c => String.mk ((t.drop c.2.1).take (c.2.2 - c.2.1)))

/-- The whole matched text (Python `m.group(0)`). -/
def grp0Str (t : List Char) (s e : Nat) : String :=
  String.mk ((t.drop s).take (e - s))

/-- Regex sequence of a list of regexes. -/
def rseq (l : List RE) : RE := l.foldr RE.seqr RE.eps

/-- Literal string regex. -/
def rstr (s : String) : RE := rseq (s.data.map RE.lit)

/-- Greedy `(?:r)?`. -/
def ropt (r : RE) : RE := RE.alt r RE.eps

/-- Greedy `p+` over a character class. -/
def rplus (p : Char → Bool) : RE := RE.seqr (RE.cls p) (RE.star (RE.cls p))

/-- `\s+`. -/
def wsP : RE := rplus isSpaceChar

/-- `\s*`. -/
def wsS : RE := RE.star (RE.cls isSpaceChar)

/-- `\w+`. -/
def wplus : RE := rplus isWordChar

/-! ## Structural delta analyzer (`analyze_code_changes`)

The patterns of `analyze_code_changes`, `extract_property_details` and
`extract_function_details`, built from the engine's combinators. Comments
give the original Python pattern. -/

/-- `(?:public\s+)?(?:static\s+)?(?:@\w+\s+)?func\s+(\w+)\s*\(` -/
def funcPat1 : RE := rseq [ropt (rseq [rstr "public", wsP]), ropt (rseq [rstr "static", wsP]),
  ropt (rseq [RE.lit '@', wplus, wsP]), rstr "func", wsP, RE.grp 1 wplus, wsS, RE.lit '(']

/-- `private\s+func\s+(\w+)\s*\(` -/
def funcPat2 : RE := rseq [rstr "private", wsP, rstr "func", wsP, RE.grp 1 wplus, wsS, RE.lit '(']

/-- `fileprivate\s+func\s+(\w+)\s*\(` -/
def funcPat3 : RE := rseq [rstr "fileprivate", wsP, rstr "func", wsP, RE.grp 1 wplus, wsS, RE.lit '(']

/-- `func_patterns` of `analyze_code_changes`, in order. -/
def funcPats : List RE := [funcPat1, funcPat2, funcPat3]

/-- `(?:public\s+)?(?:private\s+)?(?:static\s+)?(?:@\w+\s+)?(let|var)\s+(\w+)` -/
def propPat1 : RE := rseq [ropt (rseq [rstr "public", wsP]), ropt (rseq [rstr "private", wsP]),
  ropt (rseq [rstr "static", wsP]), ropt (rseq [RE.lit '@', wplus, wsP]),
  RE.grp 1 (RE.alt (rstr "let") (rstr "var")), wsP, RE.grp 2 wplus]

/-- `private\s+(let|var)\s+(\w+)` -/
def propPat2 : RE := rseq [rstr "private", wsP,
  RE.grp 1 (RE.alt (rstr "let") (rstr "var")), wsP, RE.grp 2 wplus]

/-- `fileprivate\s+(let|var)\s+(\w+)` -/
def propPat3 : RE := rseq [rstr "fileprivate", wsP,
  RE.grp 1 (RE.alt (rstr "let") (rstr "var")), wsP, RE.grp 2 wplus]

/-- `prop_patterns` of `analyze_code_changes`, in order. -/
def propPats : List RE := [propPat1, propPat2, propPat3]

/-- `(?:public\s+)?(class|struct|enum)\s+(\w+)` -/
def typePat1 : RE := rseq [ropt (rseq [rstr "public", wsP]),
  RE.grp 1 (RE.alt (rstr "class") (RE.alt (rstr "struct") (rstr "enum"))), wsP, RE.grp 2 wplus]

/-- `private\s+(class|struct|enum)\s+(\w+)` -/
def typePat2 : RE := rseq [rstr "private", wsP,
  RE.grp 1 (RE.alt (rstr "class") (RE.alt (rstr "struct") (rstr "enum"))), wsP, RE.grp 2 wplus]

/-- `type_patterns` of `analyze_code_changes`, in order. -/
def typePats : List RE := [typePat1, typePat2]

/-- `extension\s+(\w+)` -/
def extPat : RE := rseq [rstr "extension", wsP, RE.grp 1 wplus]

/-- `init\s*\(` -/
def initPat : RE := rseq [rstr "init", wsS, RE.lit '(']

/-- `self\.(\w+)\s*=` -/
def selfAssignPat : RE := rseq [rstr "self", RE.lit '.', RE.grp 1 wplus, wsS, RE.lit '=']

/-- `:\s*(\w+(?:<[^>]+>)?(?:\?)?)` (declared type of a property / return type). -/
def typeAnnoPat : RE := rseq [RE.lit ':', wsS,
  RE.grp 1 (rseq [wplus, ropt (rseq [RE.lit '<', rplus (fun c => c ≠ '>'), RE.lit '>']),
                  ropt (RE.lit '?')])]

/-- `=\s*([^,\n]+)` (default value of a property). -/
def defaultValPat : RE := rseq [RE.lit '=', wsS,
  RE.grp 1 (rplus (fun c => c ≠ ',' && c ≠ '\n'))]

/-- `\(([^)]+)\)` (parameter list of a function). -/
def paramsPat : RE := rseq [RE.lit '(', RE.grp 1 (rplus (fun c => c ≠ ')')), RE.lit ')']

/-- `->\s*(\w+(?:<[^>]+>)?(?:\?)?)` (return type of a function). -/
def returnTypePat : RE := rseq [RE.lit '-', RE.lit '>', wsS,
  RE.grp 1 (rseq [wplus, ropt (rseq [RE.lit '<', rplus (fun c => c ≠ '>'), RE.lit '>']),
                  ropt (RE.lit '?')])]

/-- Detail record of a property (`extract_property_details` result dict:
keys `type` and `default`, each present or absent). -/
structure PropDetail where
  typeD : Option String := none
  defaultD : Option String := none
deriving Repr, DecidableEq

/-- Detail record of a function (`extract_function_details` result dict:
key `params` present iff the list is nonempty, key `return_type`). -/
structure FuncDetail where
  params : List String := []
  return_type : Option String := none
deriving Repr, DecidableEq

/-- Insert into a Python dict modelled as an association list: overwrite in
place if the key exists, append otherwise. -/
def dictInsert {α : Type} (m : List (String × α)) (k : String) (v : α) :
    List (String × α) :=
  if m.any (fun p => p.1 = k) then
    m.map (fun p => if p.1 = k then (k, v) else p)
  else m ++ [(k, v)]

/-- `extract_property_details(line, prop_name)` (the `prop_name` argument is
unused in the source). -/
def extract_property_details (line : String) (_prop_name : String) : PropDetail :=
  let t := line.data
  let ty := (reSearch typeAnnoPat t).bind (fun m => grpStr t m.2.2 1)
  let df := (reSearch defaultValPat t).bind (fun m =>
    (grpStr t m.2.2 1).bind (fun v =>
      let v := pyStrip v
      if v.length < 50 then some v else none))
  { typeD := ty, defaultD := df }

/-- `extract_function_details(line, context_lines)` (the `context_lines`
argument is unused in the source body). -/
def extract_function_details (line : String) : FuncDetail :=
  let t := line.data
  let ps :=
    match (reSearch paramsPat t).bind (fun m => grpStr t m.2.2 1) with
    | none => []
    | some params_str =>
      (strSplitOn params_str ",").filterMap (fun param =>
        let param := pyStrip param
        if containsSub param ":" then
          let param_name := pyStrip ((strSplitOn param ":").headD "")
          if param_name ≠ "" && !pyStartsWith param_name "_" then some param_name
          else none
        else none)
  let rt := (reSearch returnTypePat t).bind (fun m => grpStr t m.2.2 1)
  { params := ps, return_type := rt }

/-- The `changes` dict built by `analyze_code_changes`. -/
structure CodeChanges where
  functions_added : List String := []
  functions_modified : List String := []
  properties_added : List String := []
  properties_modified : List String := []
  classes_added : List String := []
  structs_added : List String := []
  enums_added : List String := []
  extensions_added : List String := []
  initializers_modified : List String := []
  api_changes : List String := []
  property_details : List (String × PropDetail) := []
  function_details : List (String × FuncDetail) := []
  description : List String := []
deriving Repr, DecidableEq

/-- The function block of the per-added-line scan: first matching pattern of
`func_patterns` (the `break` exits only this pattern loop). -/
def lineStepFunc (removed : List String) (c : CodeChanges) (line : String) :
    CodeChanges :=
  match funcPats.findSome? (fun pt => reSearch pt line.data) with
  | none => c
  | some m =>
    let func_name := (grpStr line.data m.2.2 1).getD ""
    let c :=
      if removed.any (fun rl => containsSub rl func_name && containsSub rl "(") then
        { c with functions_modified := c.functions_modified ++ [func_name] }
      else
        { c with functions_added := c.functions_added ++ [func_name] }
    let fd := extract_function_details line
    if !fd.params.isEmpty || fd.return_type.isSome then
      { c with function_details := dictInsert c.function_details func_name fd }
    else c

/-- The property block of the per-added-line scan. -/
def lineStepProp (removed : List String) (c : CodeChanges) (line : String) :
    CodeChanges :=
  match propPats.findSome? (fun pt => reSearch pt line.data) with
  | none => c
  | some m =>
    let g0 := grp0Str line.data m.1 m.2.1
    let g1 := (grpStr line.data m.2.2 1).getD ""
    let g2 := (grpStr line.data m.2.2 2).getD ""
    let prop_name := if (pySplitWs g0).length > 2 then g2 else g1
    let prop_type := if g1 = "let" || g1 = "var" then g1 else "var"
    let c :=
      if removed.any (fun rl =>
          containsSub rl prop_name && (containsSub rl prop_type || containsSub rl "=")) then
        { c with properties_modified := c.properties_modified ++ [prop_name] }
      else
        { c with properties_added := c.properties_added ++ [prop_name] }
    let pd := extract_property_details line prop_name
    if pd.typeD.isSome || pd.defaultD.isSome then
      { c with property_details := dictInsert c.property_details prop_name pd }
    else c

/-- The type block of the per-added-line scan. -/
def lineStepType (c : CodeChanges) (line : String) : CodeChanges :=
  match typePats.findSome? (fun pt => reSearch pt line.data) with
  | none => c
  | some m =>
    let type_kind := (grpStr line.data m.2.2 1).getD ""
    let type_name := (grpStr line.data m.2.2 2).getD ""
    if type_kind = "class" then
      { c with classes_added := c.classes_added ++ [type_name] }
    else if type_kind = "struct" then
      { c with structs_added := c.structs_added ++ [type_name] }
    else if type_kind = "enum" then
      { c with enums_added := c.enums_added ++ [type_name] }
    else c

/-- The extension block of the per-added-line scan. -/
def lineStepExt (c : CodeChanges) (line : String) : CodeChanges :=
  match reSearch extPat line.data with
  | none => c
  | some m =>
    let ext_name := (grpStr line.data m.2.2 1).getD ""
    if c.extensions_added.contains ext_name then c
    else { c with extensions_added := c.extensions_added ++ [ext_name] }

/-- The initializer block of the per-added-line scan. -/
def lineStepInit (removed : List String) (c : CodeChanges) (line : String) :
    CodeChanges :=
  match reSearch initPat line.data with
  | none => c
  | some _ =>
    if removed.any (fun rl => containsSub rl "init" && containsSub rl "(") then
      { c with initializers_modified := c.initializers_modified ++ ["init"] }
    else c

/-- One added line of the main scan: the five symbol-kind blocks run in
sequence (function, property, type, extension, initializer) — each block's
`break` only ends its own inner pattern loop. -/
def lineStep (removed : List String) (c : CodeChanges) (line : String) :
    CodeChanges :=
  lineStepInit removed
    (lineStepExt (lineStepType (lineStepProp removed (lineStepFunc removed c line) line) line) line)
    line

/-- The second scan of added lines: `self\.(\w+)\s*=` marks `<name>` as a
modified property if not already recorded. -/
def selfAssignStep (c : CodeChanges) (line : String) : CodeChanges :=
  match reSearch selfAssignPat line.data with
  | none => c
  | some m =>
    let prop_name := (grpStr line.data m.2.2 1).getD ""
    if c.properties_modified.contains prop_name then c
    else { c with properties_modified := c.properties_modified ++ [prop_name] }

/-- `(\w+Config|\w+Configuration|\w+Theme)` -/
def configPat : RE := RE.grp 1 (RE.alt (rseq [wplus, rstr "Config"])
  (RE.alt (rseq [wplus, rstr "Configuration"]) (rseq [wplus, rstr "Theme"])))

/-- `(R\w+|Component\w+)` -/
def componentPat : RE := RE.grp 1 (RE.alt (rseq [RE.lit 'R', wplus])
  (rseq [rstr "Component", wplus]))

/-- `(\w+Manager)` -/
def managerPat : RE := RE.grp 1 (rseq [wplus, rstr "Manager"])

/-- `(\w+Service)` -/
def servicePat : RE := RE.grp 1 (rseq [wplus, rstr "Service"])

/-- First capture of a pattern on a line, when the guarding substring test
succeeds. -/
def scanCapture (guard : Bool) (pat : RE) (line : String) : Option String :=
  if guard then (reSearch pat line.data).bind (fun m => grpStr line.data m.2.2 1)
  else none

/-- The free-text summary built at the end of `analyze_code_changes`
(`desc_parts`). `list(set(xs))` is rendered as first-occurrence
deduplication; its Python order is hash-dependent and nothing verified
depends on this field. -/
def descGen (c : CodeChanges) (added : List String) : List String :=
  let p1 := if !c.classes_added.isEmpty then
      ["✅ Clases agregadas: " ++ joinComma c.classes_added] else []
  let p2 := if !c.structs_added.isEmpty then
      ["✅ Structs agregados: " ++ joinComma c.structs_added] else []
  let p3 := if !c.enums_added.isEmpty then
      ["✅ Enums agregados: " ++ joinComma c.enums_added] else []
  let p4 := if !c.extensions_added.isEmpty then
      ["✅ Extensiones agregadas: " ++ joinComma c.extensions_added] else []
  let propInfo := fun (props : List String) =>
    props.take 5 |>.map (fun prop =>
      match (c.property_details.find? (fun q => q.1 = prop)).map (fun q => q.2) with
      | some pd => match pd.typeD with
        | some ty => prop ++ " (" ++ ty ++ ")"
        | none => prop
      | none => prop)
  let p5 := if !c.properties_added.isEmpty then
      ["✅ Propiedades agregadas: " ++ joinComma (propInfo c.properties_added)] else []
  let p6 := if !c.properties_modified.isEmpty then
      ["🔄 Propiedades modificadas: " ++ joinComma (propInfo c.properties_modified)] else []
  let funcInfo := c.functions_added.take 5 |>.map (fun f =>
      match (c.function_details.find? (fun q => q.1 = f)).map (fun q => q.2) with
      | some fd =>
        if !fd.params.isEmpty then
          f ++ "(" ++ joinComma (fd.params.take 3) ++ "...)"
        else f
      | none => f)
  let p7 := if !c.functions_added.isEmpty then
      ["✅ Funciones agregadas: " ++ joinComma funcInfo] else []
  let p8 := if !c.functions_modified.isEmpty then
      ["🔄 Funciones modificadas: " ++ joinComma (c.functions_modified.take 5)] else []
  let p9 := if !c.initializers_modified.isEmpty then
      ["🔄 Inicializadores modificados"] else []
  let config_changes := added.filterMap (fun line => scanCapture
      (containsSub line "Configuration" || containsSub line "Config" || containsSub line "Theme")
      configPat line)
  let component_changes := added.filterMap (fun line => scanCapture
      (containsSub line "Component" || containsSub line "View") componentPat line)
  let manager_changes := added.filterMap (fun line => scanCapture
      (containsSub line "Manager") managerPat line)
  let service_changes := added.filterMap (fun line => scanCapture
      (containsSub line "Service") servicePat line)
  let p10 := if !config_changes.isEmpty then
      ["⚙️ Cambios en configuración: " ++ joinComma ((dedupFirst config_changes).take 3)] else []
  let p11 := if !component_changes.isEmpty then
      ["🎨 Cambios en componentes: " ++ joinComma ((dedupFirst component_changes).take 3)] else []
  let p12 := if !manager_changes.isEmpty then
      ["📦 Cambios en managers: " ++ joinComma ((dedupFirst manager_changes).take 3)] else []
  let p13 := if !service_changes.isEmpty then
      ["🔧 Cambios en services: " ++ joinComma ((dedupFirst service_changes).take 3)] else []
  p1 ++ p2 ++ p3 ++ p4 ++ p5 ++ p6 ++ p7 ++ p8 ++ p9 ++ p10 ++ p11 ++ p12 ++ p13

/-- `analyze_code_changes(added_lines, removed_lines)`: the main per-line
scan, then the `self.<name> = ...` scan, then the free-text summary. -/
def analyze_code_changes (added_lines removed_lines : List String) : CodeChanges :=
  let c := added_lines.foldl (fun c l => lineStep removed_lines c l) {}
  let c := added_lines.foldl selfAssignStep c
  { c with description := descGen c added_lines }

/-! ## Change classifier (`analyze_file_changes`) -/

/-- `SWIFT_SDK_PATH` of `code_analyzer.py`. -/
def SWIFT_SDK_PATH : String := "/Users/angelo/ReachuSwiftSDK"

/-- `KOTLIN_SDK_PATH` of `code_analyzer.py`. -/
def KOTLIN_SDK_PATH : String := "/Users/angelo/Documents/GitHub/ReachuKotlinSDK"

/-- `KOTLIN_RELEVANT_KEYWORDS` of `code_analyzer.py`. -/
def KOTLIN_RELEVANT_KEYWORDS : List String :=
  ["public", "struct", "class", "enum", "func", "protocol",
   "Configuration", "Manager", "Service", "Component", "Model",
   "API", "Network", "Cache", "Localization", "Translation"]

/-- `KOTLIN_IRRELEVANT_KEYWORDS` of `code_analyzer.py`. -/
def KOTLIN_IRRELEVANT_KEYWORDS : List String :=
  ["import SwiftUI", "import UIKit", "@State", "@Binding", "@ObservedObject",
   "View", "PreviewProvider", "XCTest", "test", "Test"]

/-- The added lines of a unified diff: lines starting with `+` but not
`+++`, with the sign dropped and the remainder stripped. -/
def diffAdded (diff_output : String) : List String :=
  (strSplitOn diff_output "\n").filterMap (fun l =>
    if pyStartsWith l "+" && !pyStartsWith l "+++" then some (pyStrip (l.drop 1)) else none)

/-- The removed lines of a unified diff: lines starting with `-` but not
`---`. -/
def diffRemoved (diff_output : String) : List String :=
  (strSplitOn diff_output "\n").filterMap (fun l =>
    if pyStartsWith l "-" && !pyStartsWith l "---" then some (pyStrip (l.drop 1)) else none)

/-- `'\n'.join(added_lines + removed_lines)` — the text the keyword sets are
matched against. -/
def allChangesText (added removed : List String) : String :=
  String.intercalate "\n" (added ++ removed)

/-- The sublist of `kws` whose members match the text as `\b{kw}\b`,
case-insensitively (the two keyword loops of `analyze_file_changes`). -/
def matchedKeywords (kws : List String) (text : String) : List String :=
  kws.filter (fun kw => kwMatchL text.data kw.data)

/-- Result of `analyze_file_changes`: the two early returns carry only
`relevant` and `reason`; the main path carries the full dict. -/
inductive FileAnalysis where
  | early (relevant : Bool) (reason : String)
  | full (relevant : Bool) (reason : String) (change_type : String)
      (added_count removed_count : Nat)
      (relevant_keywords irrelevant_keywords : List String)
      (diff_summary : String) (code_changes : CodeChanges)
deriving Repr, DecidableEq

/-- `d.get('relevant', False)`. -/
def FileAnalysis.getRelevant : FileAnalysis → Bool
  | .early r _ => r
  | .full r _ _ _ _ _ _ _ _ => r

/-- `d.get('reason', 'No relevante')`. -/
def FileAnalysis.getReason : FileAnalysis → String
  | .early _ s => s
  | .full _ s _ _ _ _ _ _ _ => s

/-- `d.get('code_changes', {})`. -/
def FileAnalysis.getCodeChanges : FileAnalysis → CodeChanges
  | .early _ _ => {}
  | .full _ _ _ _ _ _ _ _ cc => cc

/-- The `change_type` entry (absent on the early returns). -/
def FileAnalysis.getChangeType : FileAnalysis → String
  | .early _ _ => ""
  | .full _ _ ct _ _ _ _ _ _ => ct

/-- The `irrelevant_keywords` entry (absent on the early returns). -/
def FileAnalysis.getIrrelevantKeywords : FileAnalysis → List String
  | .early _ _ => []
  | .full _ _ _ _ _ _ ik _ _ => ik

/-- The `relevant_keywords` entry (absent on the early returns). -/
def FileAnalysis.getRelevantKeywords : FileAnalysis → List String
  | .early _ _ => []
  | .full _ _ _ _ _ rk _ _ _ => rk

/-- `analyze_file_changes(file_path, commit_hash)`. `swiftExists` is the
oracle for `os.path.exists` under the origin checkout; `diffOf` is the
output of `git show <commit> -- <path>` (empty string for "no output or git
error", as `run_git_command` returns). -/
def analyze_file_changes (swiftExists : String → Bool)
    (diffOf : String → String → String) (file_path commit_hash : String) :
    FileAnalysis :=
  let full_path := pyJoin SWIFT_SDK_PATH file_path
  if !(swiftExists full_path) || !(pyEndsWith file_path ".swift") then
    .early false "Archivo no existe o no es Swift"
  else
    let diff_output := diffOf commit_hash file_path
    if diff_output = "" then
      .early false "No hay cambios en este commit"
    else
      let added_lines := diffAdded diff_output
      let removed_lines := diffRemoved diff_output
      let all_changes := allChangesText added_lines removed_lines
      let relevant_keywords_found := matchedKeywords KOTLIN_RELEVANT_KEYWORDS all_changes
      let irrelevant_keywords_found := matchedKeywords KOTLIN_IRRELEVANT_KEYWORDS all_changes
      let code_changes := analyze_code_changes added_lines removed_lines
      let is_relevant := relevant_keywords_found.length > irrelevant_keywords_found.length
      let change_type :=
        if added_lines.any (fun l => containsSub (strLower l) "public") then "api_change"
        else if added_lines.any (fun l =>
            containsSub (strLower l) "func" || containsSub (strLower l) "function") then
          "functionality_added"
        else if added_lines.any (fun l =>
            containsSub (strLower l) "struct" || containsSub (strLower l) "class") then
          "model_added"
        else if removed_lines.length > added_lines.length * 2 then "refactor"
        else if added_lines.length > removed_lines.length * 2 then "feature_added"
        else "modification"
      .full (decide is_relevant)
        ("Keywords relevantes: " ++ pyReprList relevant_keywords_found ++
          ", Irrelevantes: " ++ pyReprList irrelevant_keywords_found)
        change_type added_lines.length removed_lines.length
        relevant_keywords_found irrelevant_keywords_found
        ("+" ++ toString added_lines.length ++ " -" ++ toString removed_lines.length)
        code_changes

/-- The claimed six-way precedence for `change_type`, written from the
specification: publicly-exported marker, then function-declaration token,
then type-declaration token, then the two line-count ratio rules, else
`modification`. -/
def changeTypeSpec (added removed : List String) : String :=
  if added.any (fun l => containsSub (strLower l) "public") then "api_change"
  else if added.any (fun l =>
      containsSub (strLower l) "func" || containsSub (strLower l) "function") then
    "functionality_added"
  else if added.any (fun l =>
      containsSub (strLower l) "struct" || containsSub (strLower l) "class") then
    "model_added"
  else if removed.length > added.length * 2 then "refactor"
  else if added.length > removed.length * 2 then "feature_added"
  else "modification"

/-- Claim C5: for every diff reaching the main path, the per-file `relevant`
flag is true iff the number of matched portable-surface keywords strictly
exceeds the number of matched presentation/test-only keywords, each keyword
matched as `\b{kw}\b` case-insensitively over the concatenation of the added
and removed lines. -/
theorem C5_relevance_flag (se : String → Bool) (dif : String → String → String)
    (p ch : String) (h1 : se (pyJoin SWIFT_SDK_PATH p) = true)
    (h2 : pyEndsWith p ".swift" = true) (h3 : dif ch p ≠ "") :
    (analyze_file_changes se dif p ch).getRelevant =
      decide ((matchedKeywords KOTLIN_RELEVANT_KEYWORDS
          (allChangesText (diffAdded (dif ch p)) (diffRemoved (dif ch p)))).length >
        (matchedKeywords KOTLIN_IRRELEVANT_KEYWORDS
          (allChangesText (diffAdded (dif ch p)) (diffRemoved (dif ch p)))).length) := by
  unfold analyze_file_changes
  simp [h1, h2, h3, FileAnalysis.getRelevant]

/-- An `os.path.exists` oracle that affirms every path. -/
def oracleTrue : String → Bool := fun _ => true

/-- A git-diff oracle with one added and one removed line. -/
def wit5Diff : String → String → String := fun _ _ => "+public struct Foo\n-import SwiftUI"

/-- Witness for C5 at a concrete diff (two portable keywords against one
presentation keyword, so the flag is true). -/
theorem C5_relevance_flag_witness :
    oracleTrue (pyJoin SWIFT_SDK_PATH "Sources/ReachuCore/Widget.swift") = true ∧
    pyEndsWith "Sources/ReachuCore/Widget.swift" ".swift" = true ∧
    wit5Diff "h1" "Sources/ReachuCore/Widget.swift" ≠ "" ∧
    (analyze_file_changes oracleTrue wit5Diff "Sources/ReachuCore/Widget.swift" "h1").getRelevant =
      decide ((matchedKeywords KOTLIN_RELEVANT_KEYWORDS
          (allChangesText (diffAdded (wit5Diff "h1" "Sources/ReachuCore/Widget.swift"))
            (diffRemoved (wit5Diff "h1" "Sources/ReachuCore/Widget.swift")))).length >
        (matchedKeywords KOTLIN_IRRELEVANT_KEYWORDS
          (allChangesText (diffAdded (wit5Diff "h1" "Sources/ReachuCore/Widget.swift"))
            (diffRemoved (wit5Diff "h1" "Sources/ReachuCore/Widget.swift")))).length) :=
  ⟨rfl, rfl, by decide,
    C5_relevance_flag oracleTrue wit5Diff "Sources/ReachuCore/Widget.swift" "h1"
      rfl rfl (by decide)⟩

/-- Claim C6: on the main path, `change_type` follows exactly the claimed
six-way precedence (public marker, function token, type token, removed more
than twice added, added more than twice removed, modification), here stated
as agreement with `changeTypeSpec`, the precedence written from the claim. -/
theorem C6_change_type_precedence (se : String → Bool)
    (dif : String → String → String) (p ch : String)
    (h1 : se (pyJoin SWIFT_SDK_PATH p) = true)
    (h2 : pyEndsWith p ".swift" = true) (h3 : dif ch p ≠ "") :
    (analyze_file_changes se dif p ch).getChangeType =
      changeTypeSpec (diffAdded (dif ch p)) (diffRemoved (dif ch p)) := by
  unfold analyze_file_changes changeTypeSpec
  simp [h1, h2, h3, FileAnalysis.getChangeType]

/-- A git-diff oracle for the claim's particular case: 80 removed lines,
10 added lines, no marker tokens anywhere. -/
def wit6Diff : String → String → String := fun _ _ =>
  String.intercalate "\n" (List.replicate 80 "-old" ++ List.replicate 10 "+new")

/-- Witness for C6: on the 80-removed/10-added diff the classifier agrees
with the claimed precedence, and both give `refactor`. -/
theorem C6_change_type_precedence_witness :
    oracleTrue (pyJoin SWIFT_SDK_PATH "Sources/ReachuCore/Big.swift") = true ∧
    pyEndsWith "Sources/ReachuCore/Big.swift" ".swift" = true ∧
    wit6Diff "h2" "Sources/ReachuCore/Big.swift" ≠ "" ∧
    (analyze_file_changes oracleTrue wit6Diff "Sources/ReachuCore/Big.swift" "h2").getChangeType =
      changeTypeSpec (diffAdded (wit6Diff "h2" "Sources/ReachuCore/Big.swift"))
        (diffRemoved (wit6Diff "h2" "Sources/ReachuCore/Big.swift")) ∧
    changeTypeSpec (diffAdded (wit6Diff "h2" "Sources/ReachuCore/Big.swift"))
        (diffRemoved (wit6Diff "h2" "Sources/ReachuCore/Big.swift")) = "refactor" :=
  ⟨rfl, rfl, by decide,
    C6_change_type_precedence oracleTrue wit6Diff "Sources/ReachuCore/Big.swift" "h2"
      rfl rfl (by decide), by rfl⟩

/-! ## Cross-codebase path mapper (`map_swift_to_kotlin_path`) and
implementation-status checker (`check_kotlin_implementation`)

The destination filesystem is an explicit snapshot oracle. `walk` models
`os.walk(dir)` as the traversal-ordered list of `(root, files)` pairs. -/

/-- Destination-side filesystem oracle. -/
structure FS where
  pathExists : String → Bool
  readFile : String → Except String String
  walk : String → List (String × List String)

/-- `path_mappings` of `map_swift_to_kotlin_path`, in dict insertion order. -/
def path_mappings : List (String × String) :=
  [("Sources/ReachuCore/", "src/main/kotlin/io/reachu/core/"),
   ("Sources/ReachuUI/", "src/main/kotlin/io/reachu/ui/"),
   ("Sources/ReachuDesignSystem/", "src/main/kotlin/io/reachu/design/"),
   ("Sources/ReachuNetwork/", "src/main/kotlin/io/reachu/network/")]

/-- Result of the path mapper, instrumented with the list of directories the
recursive fallback search (`os.walk`) was invoked on, so that "never falls
back to directory search" is expressible. -/
structure MapResult where
  result : Option String
  searched : List String
deriving Repr, DecidableEq

/-- The mapping loop of `map_swift_to_kotlin_path`: for each rule whose
origin prefix occurs in the path, build the direct candidate (substituted
prefix, basename, `.swift` → `.kt`); return it if it exists, otherwise walk
the mapped directory (when it exists) for the translated basename; a rule
that yields nothing falls through to the next rule. -/
def mapRules (fs : FS) (swift_path : String) :
    List (String × String) → List String → MapResult
  | [], acc => { result := none, searched := acc.reverse }
  | (swiftPre, kotlinPre) :: rest, acc =>
    if containsSub swift_path swiftPre then
      let relative_path := pyReplace swift_path swiftPre ""
      let filename := pyBasename relative_path
      let kotlin_filename := pyReplace filename ".swift" ".kt"
      let kotlin_path := pyJoin (pyJoin KOTLIN_SDK_PATH kotlinPre) kotlin_filename
      if fs.pathExists kotlin_path then
        { result := some kotlin_path, searched := acc.reverse }
      else
        let kotlin_dir := pyJoin KOTLIN_SDK_PATH kotlinPre
        if fs.pathExists kotlin_dir then
          match (fs.walk kotlin_dir).findSome? (fun rootFiles =>
              if rootFiles.2.contains kotlin_filename then
                some (pyJoin rootFiles.1 kotlin_filename)
              else none) with
          | some found => { result := some found, searched := (kotlin_dir :: acc).reverse }
          | none => mapRules fs swift_path rest (kotlin_dir :: acc)
        else mapRules fs swift_path rest acc
    else mapRules fs swift_path rest acc

/-- `map_swift_to_kotlin_path(swift_path)` (instrumented). -/
def map_swift_to_kotlin_path (fs : FS) (swift_path : String) : MapResult :=
  mapRules fs swift_path path_mappings []

/-- The direct destination candidate of one mapping rule. -/
def directCandidate (swift_path : String) (rule : String × String) : String :=
  pyJoin (pyJoin KOTLIN_SDK_PATH rule.2)
    (pyReplace (pyBasename (pyReplace swift_path rule.1 "")) ".swift" ".kt")

/-- The `kotlin_info` dict of `check_kotlin_implementation`. -/
structure KotlinInfo where
  needs_implementation : Bool := true
  kotlin_file_path : Option String := none
  already_implemented : List String := []
  missing_implementation : List String := []
  notes : List String := []
deriving Repr, DecidableEq

/-- `[rf'\bval\s+{prop}\b', rf'\bvar\s+{prop}\b', rf'property\s+{prop}\b']`
(matched on lowered text with a lowered name, which embeds `re.IGNORECASE`
for ASCII input). -/
def kotlinPropPats (prop : String) : List RE :=
  [rseq [RE.bnd, rstr "val", wsP, rstr prop, RE.bnd],
   rseq [RE.bnd, rstr "var", wsP, rstr prop, RE.bnd],
   rseq [rstr "property", wsP, rstr prop, RE.bnd]]

/-- `[rf'\bfun\s+{f}\s*\(', rf'\bprivate\s+fun\s+{f}\s*\(',
rf'\bpublic\s+fun\s+{f}\s*\(']`. -/
def kotlinFuncPats (f : String) : List RE :=
  [rseq [RE.bnd, rstr "fun", wsP, rstr f, wsS, RE.lit '('],
   rseq [RE.bnd, rstr "private", wsP, rstr "fun", wsP, rstr f, wsS, RE.lit '('],
   rseq [RE.bnd, rstr "public", wsP, rstr "fun", wsP, rstr f, wsS, RE.lit '(']]

/-- `[rf'\bclass\s+{c}\b', rf'\bdata\s+class\s+{c}\b', rf'\bobject\s+{c}\b',
rf'\bsealed\s+class\s+{c}\b']`. -/
def kotlinClassPats (c : String) : List RE :=
  [rseq [RE.bnd, rstr "class", wsP, rstr c, RE.bnd],
   rseq [RE.bnd, rstr "data", wsP, rstr "class", wsP, rstr c, RE.bnd],
   rseq [RE.bnd, rstr "object", wsP, rstr c, RE.bnd],
   rseq [RE.bnd, rstr "sealed", wsP, rstr "class", wsP, rstr c, RE.bnd]]

/-- `any(re.search(p, kotlin_content, re.IGNORECASE) for p in patterns)`. -/
def findSymbol (pats : List RE) (contentLower : List Char) : Bool :=
  pats.any (fun pt => reTest pt contentLower)

/-- `check_kotlin_implementation(swift_file_path, code_changes)`.

The source's no-destination-file branch (`else:` at the end of the function)
reads `properties_added`, `functions_added` and `classes_added`, local
variables that are only ever assigned inside the destination-file-exists
branch; reaching it therefore raises `UnboundLocalError`, modelled as
`.error`. -/
def check_kotlin_implementation (fs : FS) (swift_file_path : String)
    (code_changes : CodeChanges) : Except String KotlinInfo :=
  if !(fs.pathExists KOTLIN_SDK_PATH) then
    .ok { needs_implementation := true, kotlin_file_path := none,
          already_implemented := [], missing_implementation := [],
          notes := ["Proyecto Kotlin no encontrado en la ruta esperada"] }
  else
    match (map_swift_to_kotlin_path fs swift_file_path).result with
    | some kotlin_path =>
      if fs.pathExists kotlin_path then
        match fs.readFile kotlin_path with
        | .error e =>
          .ok { needs_implementation := true, kotlin_file_path := some kotlin_path,
                already_implemented := [], missing_implementation := [],
                notes := ["Error leyendo archivo Kotlin: " ++ e] }
        | .ok kotlin_content =>
          let contentL := (strLower kotlin_content).data
          let propResults := code_changes.properties_added.map (fun prop =>
            (prop, findSymbol (kotlinPropPats (strLower prop)) contentL))
          let funcResults := code_changes.functions_added.map (fun f =>
            (f, findSymbol (kotlinFuncPats (strLower f)) contentL))
          let classResults := code_changes.classes_added.map (fun c =>
            (c, findSymbol (kotlinClassPats (strLower c)) contentL))
          let already_implemented :=
            (propResults.filterMap (fun x =>
              if x.2 then some ("propiedad: " ++ x.1) else none)) ++
            (funcResults.filterMap (fun x =>
              if x.2 then some ("función: " ++ x.1) else none)) ++
            (classResults.filterMap (fun x =>
              if x.2 then some ("clase: " ++ x.1) else none))
          let missing :=
            (propResults.filterMap (fun x =>
              if !x.2 then some ("propiedad: " ++ x.1) else none)) ++
            (funcResults.filterMap (fun x =>
              if !x.2 then some ("función: " ++ x.1) else none)) ++
            (classResults.filterMap (fun x =>
              if !x.2 then some ("clase: " ++ x.1) else none))
          let notes1 := if !already_implemented.isEmpty then
              ["Ya implementado en Kotlin: " ++ joinComma (already_implemented.take 3)]
            else []
          let notes2 := if !missing.isEmpty then
              ["Falta implementar en Kotlin: " ++ joinComma (missing.take 3)]
            else []
          .ok { needs_implementation := decide (missing.length > 0),
                kotlin_file_path := some kotlin_path,
                already_implemented := already_implemented,
                missing_implementation := missing,
                notes := notes1 ++ notes2 }
      else
        .error "UnboundLocalError: local variable properties_added referenced before assignment"
    | none =>
      .error "UnboundLocalError: local variable properties_added referenced before assignment"

/-- If the first rule of `path_mappings` whose origin prefix occurs in the
path has an existing direct candidate, the mapping loop returns that
candidate and invokes no directory walk. -/
theorem mapRules_first_hit (fs : FS) (p : String) :
    ∀ (rules : List (String × String)) (rule : String × String) (acc : List String),
    rules.find? (fun r => containsSub p r.1) = some rule →
    fs.pathExists (directCandidate p rule) = true →
    mapRules fs p rules acc =
      { result := some (directCandidate p rule), searched := acc.reverse } := by
  intro rules
  induction rules with
  | nil => intro rule acc hf; simp at hf
  | cons hd tl ih =>
    intro rule acc hf hex
    by_cases h : containsSub p hd.1 = true
    · have : rule = hd := by
        simp [List.find?, h] at hf
        exact hf.symm
      subst this
      unfold mapRules
      simp only [h, if_true]
      have : pyJoin (pyJoin KOTLIN_SDK_PATH rule.2)
          (pyReplace (pyBasename (pyReplace p rule.1 "")) ".swift" ".kt") =
          directCandidate p rule := rfl
      rw [this, hex]
      simp
    · have h' : containsSub p hd.1 = false := by
        cases hc : containsSub p hd.1
        · rfl
        · exact absurd hc h
      have hf' : tl.find? (fun r => containsSub p r.1) = some rule := by
        simpa [List.find?, h'] using hf
      unfold mapRules
      cases hd with
      | mk a b =>
        simp only at h'
        simp only [h', Bool.false_eq_true, if_false]
        exact ih rule acc hf' hex

/-- If no rule's origin prefix occurs in the path, the mapping loop returns
no candidate and invokes no directory walk. -/
theorem mapRules_no_match (fs : FS) (p : String) :
    ∀ (rules : List (String × String)) (acc : List String),
    rules.find? (fun r => containsSub p r.1) = none →
    mapRules fs p rules acc = { result := none, searched := acc.reverse } := by
  intro rules
  induction rules with
  | nil => intro acc _; rfl
  | cons hd tl ih =>
    intro acc hf
    have h' : containsSub p hd.1 = false := by
      cases hc : containsSub p hd.1
      · rfl
      · simp [List.find?, hc] at hf
    have hf' : tl.find? (fun r => containsSub p r.1) = none := by
      simpa [List.find?, h'] using hf
    unfold mapRules
    cases hd with
    | mk a b =>
      simp only at h'
      simp only [h', Bool.false_eq_true, if_false]
      exact ih acc hf'

/-- Claim C8: (1) when the first matching rule's direct destination
candidate exists, `map_swift_to_kotlin_path` returns it and performs no
recursive directory fallback search (`searched = []`); (2) when no prefix
rule matches the origin path, the result is absent with no search. In both
cases the result is an ordinary `Option` value — absence is a normal,
non-error outcome of this total function. -/
theorem C8_mapper (fs : FS) (p : String) :
    (∀ rule : String × String,
      path_mappings.find? (fun r => containsSub p r.1) = some rule →
      fs.pathExists (directCandidate p rule) = true →
      map_swift_to_kotlin_path fs p =
        { result := some (directCandidate p rule), searched := [] }) ∧
    (path_mappings.find? (fun r => containsSub p r.1) = none →
      map_swift_to_kotlin_path fs p = { result := none, searched := [] }) :=
  ⟨fun rule hf hex => mapRules_first_hit fs p path_mappings rule [] hf hex,
   fun hf => mapRules_no_match fs p path_mappings [] hf⟩

/-- A destination snapshot where every path exists and files read as
`class Foo`. -/
def fsAll : FS :=
  { pathExists := fun _ => true, readFile := fun _ => .ok "class Foo",
    walk := fun _ => [] }

/-- Witness for C8: both conjuncts applied at concrete inputs — a
portable-surface path whose direct candidate exists (returned, nothing
searched) and a path matching no rule (absent result). -/
theorem C8_mapper_witness :
    (path_mappings.find? (fun r => containsSub "Sources/ReachuCore/Widget.swift" r.1) =
        some ("Sources/ReachuCore/", "src/main/kotlin/io/reachu/core/") ∧
      fsAll.pathExists (directCandidate "Sources/ReachuCore/Widget.swift"
        ("Sources/ReachuCore/", "src/main/kotlin/io/reachu/core/")) = true ∧
      map_swift_to_kotlin_path fsAll "Sources/ReachuCore/Widget.swift" =
        { result := some (directCandidate "Sources/ReachuCore/Widget.swift"
            ("Sources/ReachuCore/", "src/main/kotlin/io/reachu/core/")), searched := [] }) ∧
    (path_mappings.find? (fun r => containsSub "Other/Widget.swift" r.1) = none ∧
      map_swift_to_kotlin_path fsAll "Other/Widget.swift" =
        { result := none, searched := [] }) :=
  ⟨⟨by decide, rfl,
    (C8_mapper fsAll "Sources/ReachuCore/Widget.swift").1
      ("Sources/ReachuCore/", "src/main/kotlin/io/reachu/core/") (by decide) rfl⟩,
   ⟨by decide, (C8_mapper fsAll "Other/Widget.swift").2 (by decide)⟩⟩

/-- A list is nonempty exactly when its length is positive (behind the
`needs_implementation = len(missing) > 0` assignment). -/
theorem needsIffAux (m : List String) : (decide (m.length > 0) = true ↔ m ≠ []) := by
  simp [List.length_pos]

/-- Claim C2 (amended): on the main path — destination SDK root present,
mapped destination file present and readable — `needs_implementation` is
true iff `missing_implementation` is nonempty. (As stated over every result
the claim fails: the missing-root and unreadable-file branches return
`needs_implementation = true` with an empty missing list, see
`C2_counterexample`.) -/
theorem C2_needs_iff_missing (fs : FS) (p : String) (cc : CodeChanges)
    (kp content : String)
    (hroot : fs.pathExists KOTLIN_SDK_PATH = true)
    (hm : (map_swift_to_kotlin_path fs p).result = some kp)
    (hkp : fs.pathExists kp = true)
    (hread : fs.readFile kp = .ok content) :
    ∃ r, check_kotlin_implementation fs p cc = .ok r ∧
      (r.needs_implementation = true ↔ r.missing_implementation ≠ []) := by
  unfold check_kotlin_implementation
  simp only [hroot, hm, hkp, hread, Bool.not_true, Bool.false_eq_true, if_false, if_true]
  refine ⟨_, rfl, ?_⟩
  exact needsIffAux _

/-- A destination snapshot with no filesystem at all (in particular the
destination SDK root is absent). -/
def fsNoRoot : FS :=
  { pathExists := fun _ => false, readFile := fun _ => .error "missing",
    walk := fun _ => [] }

/-- Counterexample to C2 as stated: when the destination SDK root is
absent, `check_kotlin_implementation` returns a result with
`needs_implementation = true` and an empty `missing_implementation` list,
so the claimed iff fails on this returned result. -/
theorem C2_counterexample :
    (check_kotlin_implementation fsNoRoot "Sources/ReachuCore/Widget.swift"
        {}).toOption.map
      (fun k => (k.needs_implementation, k.missing_implementation)) =
      some (true, []) := rfl

/-- Witness for the amended C2 at a concrete snapshot: the destination file
exists, reads as `class Foo`, the only changed symbol is already
implemented, and the iff holds with `needs_implementation = false`. -/
theorem C2_needs_iff_missing_witness :
    fsAll.pathExists KOTLIN_SDK_PATH = true ∧
    (map_swift_to_kotlin_path fsAll "Sources/ReachuCore/Widget.swift").result =
      some "/Users/angelo/Documents/GitHub/ReachuKotlinSDK/src/main/kotlin/io/reachu/core/Widget.kt" ∧
    (∃ r, check_kotlin_implementation fsAll "Sources/ReachuCore/Widget.swift"
        { classes_added := ["Foo"] } = .ok r ∧
      (r.needs_implementation = true ↔ r.missing_implementation ≠ [])) :=
  ⟨rfl, rfl,
    C2_needs_iff_missing fsAll "Sources/ReachuCore/Widget.swift" { classes_added := ["Foo"] }
      "/Users/angelo/Documents/GitHub/ReachuKotlinSDK/src/main/kotlin/io/reachu/core/Widget.kt"
      "class Foo" rfl rfl rfl rfl⟩

/-- A destination snapshot where only the SDK root itself exists, so every
destination path candidate is absent. -/
def fsRootOnly : FS :=
  { pathExists := fun q => q == KOTLIN_SDK_PATH, readFile := fun _ => .error "unreadable",
    walk := fun _ => [] }

/-- A structural delta with one property, one function and one type. -/
def cc3 : CodeChanges :=
  { properties_added := ["color"], functions_added := ["updateColor"],
    classes_added := ["Widget"] }

/-- Claim C3 evaluated at the failing input: with the destination SDK root
present but no destination file for the origin path, the source reaches its
no-destination branch, whose list comprehensions read `properties_added`,
`functions_added` and `classes_added` — local variables assigned only in
the other branch — so the call raises `UnboundLocalError` instead of
returning the all-missing result with its explanatory note. -/
theorem C3_no_destination_file_raises :
    check_kotlin_implementation fsRootOnly "Sources/ReachuCore/Widget.swift" cc3 =
      .error "UnboundLocalError: local variable properties_added referenced before assignment" :=
  rfl

/-- Symbols attributed by the function category (added plus modified). -/
def funcCount (c : CodeChanges) : Nat :=
  c.functions_added.length + c.functions_modified.length

/-- Symbols attributed to the property lists (added plus modified). -/
def propCount (c : CodeChanges) : Nat :=
  c.properties_added.length + c.properties_modified.length

/-- Symbols attributed by the type category (classes, structs, enums). -/
def typeCount (c : CodeChanges) : Nat :=
  c.classes_added.length + c.structs_added.length + c.enums_added.length

/-- Symbols attributed by the extension category. -/
def extCount (c : CodeChanges) : Nat :=
  c.extensions_added.length

/-- Marks attributed by the initializer category. -/
def initCount (c : CodeChanges) : Nat :=
  c.initializers_modified.length

/-- The function block attributes at most one symbol per line and leaves
every other category untouched. -/
theorem lineStepFunc_counts (removed : List String) (c : CodeChanges) (line : String) :
    funcCount (lineStepFunc removed c line) ≤ funcCount c + 1 ∧
    propCount (lineStepFunc removed c line) = propCount c ∧
    typeCount (lineStepFunc removed c line) = typeCount c ∧
    extCount (lineStepFunc removed c line) = extCount c ∧
    initCount (lineStepFunc removed c line) = initCount c := by
  unfold lineStepFunc funcCount propCount typeCount extCount initCount
  cases hm : funcPats.findSome? (fun pt => reSearch pt line.data) with
  | none => simp
  | some m =>
    simp only []
    repeat' split
    all_goals refine ⟨by simp; try omega, by simp, by simp, by simp, by simp⟩

/-- The property block attributes at most one symbol per line and leaves
every other category untouched. -/
theorem lineStepProp_counts (removed : List String) (c : CodeChanges) (line : String) :
    propCount (lineStepProp removed c line) ≤ propCount c + 1 ∧
    funcCount (lineStepProp removed c line) = funcCount c ∧
    typeCount (lineStepProp removed c line) = typeCount c ∧
    extCount (lineStepProp removed c line) = extCount c ∧
    initCount (lineStepProp removed c line) = initCount c := by
  unfold lineStepProp funcCount propCount typeCount extCount initCount
  cases hm : propPats.findSome? (fun pt => reSearch pt line.data) with
  | none => simp
  | some m =>
    simp only []
    repeat' split
    all_goals refine ⟨by simp; try omega, by simp, by simp, by simp, by simp⟩

/-- The type block attributes at most one symbol per line and leaves
every other category untouched. -/
theorem lineStepType_counts (c : CodeChanges) (line : String) :
    typeCount (lineStepType c line) ≤ typeCount c + 1 ∧
    funcCount (lineStepType c line) = funcCount c ∧
    propCount (lineStepType c line) = propCount c ∧
    extCount (lineStepType c line) = extCount c ∧
    initCount (lineStepType c line) = initCount c := by
  unfold lineStepType funcCount propCount typeCount extCount initCount
  cases hm : typePats.findSome? (fun pt => reSearch pt line.data) with
  | none => simp
  | some m =>
    simp only []
    repeat' split
    all_goals refine ⟨by simp; try omega, by simp, by simp, by simp, by simp⟩

/-- The extension block attributes at most one symbol per line and leaves
every other category untouched. -/
theorem lineStepExt_counts (c : CodeChanges) (line : String) :
    extCount (lineStepExt c line) ≤ extCount c + 1 ∧
    funcCount (lineStepExt c line) = funcCount c ∧
    propCount (lineStepExt c line) = propCount c ∧
    typeCount (lineStepExt c line) = typeCount c ∧
    initCount (lineStepExt c line) = initCount c := by
  unfold lineStepExt funcCount propCount typeCount extCount initCount
  cases hm : reSearch extPat line.data with
  | none => simp
  | some m =>
    simp only []
    repeat' split
    all_goals refine ⟨by simp; try omega, by simp, by simp, by simp, by simp⟩

/-- The initializer block attributes at most one mark per line and leaves
every other category untouched. -/
theorem lineStepInit_counts (removed : List String) (c : CodeChanges) (line : String) :
    initCount (lineStepInit removed c line) ≤ initCount c + 1 ∧
    funcCount (lineStepInit removed c line) = funcCount c ∧
    propCount (lineStepInit removed c line) = propCount c ∧
    typeCount (lineStepInit removed c line) = typeCount c ∧
    extCount (lineStepInit removed c line) = extCount c := by
  unfold lineStepInit funcCount propCount typeCount extCount initCount
  cases hm : reSearch initPat line.data with
  | none => simp
  | some m =>
    simp only []
    repeat' split
    all_goals refine ⟨by simp; try omega, by simp, by simp, by simp, by simp⟩

/-- The `self.<name> = ...` pass adds at most one modified-property entry
per line and touches no other category. -/
theorem selfAssignStep_counts (c : CodeChanges) (line : String) :
    propCount (selfAssignStep c line) ≤ propCount c + 1 ∧
    funcCount (selfAssignStep c line) = funcCount c ∧
    typeCount (selfAssignStep c line) = typeCount c ∧
    extCount (selfAssignStep c line) = extCount c ∧
    initCount (selfAssignStep c line) = initCount c := by
  unfold selfAssignStep funcCount propCount typeCount extCount initCount
  cases hm : reSearch selfAssignPat line.data with
  | none => simp
  | some m =>
    simp only []
    repeat' split
    all_goals refine ⟨by simp; try omega, by simp, by simp, by simp, by simp⟩

/-- One line of the main scan grows each of the five categories by at most
one symbol. -/
theorem lineStep_counts (removed : List String) (c : CodeChanges) (line : String) :
    funcCount (lineStep removed c line) ≤ funcCount c + 1 ∧
    propCount (lineStep removed c line) ≤ propCount c + 1 ∧
    typeCount (lineStep removed c line) ≤ typeCount c + 1 ∧
    extCount (lineStep removed c line) ≤ extCount c + 1 ∧
    initCount (lineStep removed c line) ≤ initCount c + 1 := by
  unfold lineStep
  have h1 := lineStepFunc_counts removed c line
  have h2 := lineStepProp_counts removed (lineStepFunc removed c line) line
  have h3 := lineStepType_counts
    (lineStepProp removed (lineStepFunc removed c line) line) line
  have h4 := lineStepExt_counts
    (lineStepType (lineStepProp removed (lineStepFunc removed c line) line) line) line
  have h5 := lineStepInit_counts removed
    (lineStepExt (lineStepType (lineStepProp removed (lineStepFunc removed c line) line) line) line)
    line
  omega

/-- Across the main scan, each category grows by at most one symbol per
added line. -/
theorem foldl_lineStep_counts (removed : List String) :
    ∀ (added : List String) (c : CodeChanges),
    funcCount (added.foldl (fun c l => lineStep removed c l) c) ≤ funcCount c + added.length ∧
    propCount (added.foldl (fun c l => lineStep removed c l) c) ≤ propCount c + added.length ∧
    typeCount (added.foldl (fun c l => lineStep removed c l) c) ≤ typeCount c + added.length ∧
    extCount (added.foldl (fun c l => lineStep removed c l) c) ≤ extCount c + added.length ∧
    initCount (added.foldl (fun c l => lineStep removed c l) c) ≤ initCount c + added.length := by
  intro added
  induction added with
  | nil => intro c; simp
  | cons hd tl ih =>
    intro c
    simp only [List.foldl_cons, List.length_cons]
    have h1 := ih (lineStep removed c hd)
    have h2 := lineStep_counts removed c hd
    omega

/-- Across the self-assignment pass, only the property lists grow, by at
most one entry per added line. -/
theorem foldl_selfAssign_counts :
    ∀ (added : List String) (c : CodeChanges),
    propCount (added.foldl selfAssignStep c) ≤ propCount c + added.length ∧
    funcCount (added.foldl selfAssignStep c) = funcCount c ∧
    typeCount (added.foldl selfAssignStep c) = typeCount c ∧
    extCount (added.foldl selfAssignStep c) = extCount c ∧
    initCount (added.foldl selfAssignStep c) = initCount c := by
  intro added
  induction added with
  | nil => intro c; simp
  | cons hd tl ih =>
    intro c
    simp only [List.foldl_cons, List.length_cons]
    have h1 := ih (selfAssignStep c hd)
    have h2 := selfAssignStep_counts c hd
    omega

/-- Setting the free-text summary changes no category count. -/
theorem descUpdate_counts (c : CodeChanges) (d : List String) :
    funcCount { c with description := d } = funcCount c ∧
    propCount { c with description := d } = propCount c ∧
    typeCount { c with description := d } = typeCount c ∧
    extCount { c with description := d } = extCount c ∧
    initCount { c with description := d } = initCount c := by
  unfold funcCount propCount typeCount extCount initCount
  simp

/-- All five per-category bounds for `analyze_code_changes`: the main scan
attributes at most one symbol per category per line; the property lists can
gain one further entry per line from the self-assignment pass. -/
theorem categoryBounds (added removed : List String) :
    funcCount (analyze_code_changes added removed) ≤ added.length ∧
    propCount (analyze_code_changes added removed) ≤ 2 * added.length ∧
    typeCount (analyze_code_changes added removed) ≤ added.length ∧
    extCount (analyze_code_changes added removed) ≤ added.length ∧
    initCount (analyze_code_changes added removed) ≤ added.length := by
  unfold analyze_code_changes
  simp only []
  have h1 := foldl_lineStep_counts removed added {}
  have h2 := foldl_selfAssign_counts added
    (added.foldl (fun c l => lineStep removed c l) {})
  have h3 := descUpdate_counts
    (added.foldl selfAssignStep (added.foldl (fun c l => lineStep removed c l) {}))
    (descGen (added.foldl selfAssignStep (added.foldl (fun c l => lineStep removed c l) {})) added)
  have h0 : funcCount {} = 0 ∧ propCount {} = 0 ∧ typeCount {} = 0 ∧
      extCount {} = 0 ∧ initCount {} = 0 := by
    unfold funcCount propCount typeCount extCount initCount
    simp
  omega

/-- Counterexample to C7 as stated: the added line `func foo() class Bar`
is attributed to two different symbol-kind categories at once — it is
recorded both as an added function `foo` and as an added class `Bar` — so a
line is not limited to the first matching category. -/
theorem C7_counterexample :
    (analyze_code_changes ["func foo() class Bar"] []).functions_added = ["foo"] ∧
    (analyze_code_changes ["func foo() class Bar"] []).classes_added = ["Bar"] :=
  ⟨rfl, rfl⟩

/-- Claim C7 (amended): within each of the five symbol-kind categories the
main per-line scan attributes at most one symbol per added line (each
category's `break` ends only its own pattern loop), proved as counting
bounds for all five categories — the property lists may gain one further
entry per line from the separate `self.<name> = ...` pass, hence their
`2 *` bound; but the categories are evaluated independently per line, so
one added line can be counted under several different symbol kinds at once
(here: both function and type). -/
theorem C7_category_attribution :
    (∀ added removed : List String,
      funcCount (analyze_code_changes added removed) ≤ added.length ∧
      propCount (analyze_code_changes added removed) ≤ 2 * added.length ∧
      typeCount (analyze_code_changes added removed) ≤ added.length ∧
      extCount (analyze_code_changes added removed) ≤ added.length ∧
      initCount (analyze_code_changes added removed) ≤ added.length) ∧
    ((analyze_code_changes ["func foo() class Bar"] []).functions_added = ["foo"] ∧
      (analyze_code_changes ["func foo() class Bar"] []).classes_added = ["Bar"]) :=
  ⟨categoryBounds, rfl, rfl⟩

/-! ## The `@`-prefixed keywords (claim C10) -/

/-- No word character lowercases to `@`: uppercase letters lower into
`a`–`z`, and every other character is fixed by `asciiLower`. -/
theorem asciiLower_at_sign (c : Char) (h : asciiLower c = '@') : isWordChar c = false := by
  unfold asciiLower at h
  by_cases hc : 65 ≤ c.toNat ∧ c.toNat ≤ 90
  · rw [if_pos hc] at h
    exfalso
    have hv : (Char.ofNat (c.toNat + 32)).toNat = c.toNat + 32 := by
      unfold Char.ofNat
      rw [dif_pos (Or.inl (by omega : c.toNat + 32 < 0xd800))]
      rfl
    rw [h] at hv
    have h64 : ('@' : Char).toNat = 64 := rfl
    omega
  · rw [if_neg hc] at h
    subst h
    rfl

/-- A `\b{kw}\b` match of a keyword starting with `@` forces the position
just before the `@` to hold a word character: the leading `\b` is a
boundary, and `@` itself is a non-word character. -/
theorem kwAt_at_sign (t kw : List Char) (r : List Char) (i : Nat)
    (hkw : kw.map asciiLower = '@' :: r) (h : kwAt t kw i = true) :
    ∃ j c, i = j + 1 ∧ wordAt t j = true ∧ t.get? (j + 1) = some c ∧ asciiLower c = '@' := by
  unfold kwAt at h
  simp only [Bool.and_eq_true, beq_iff_eq] at h
  obtain ⟨⟨hslice, hb1⟩, _⟩ := h
  rw [hkw] at hslice
  have hlt : i < t.length := by
    by_contra hge
    have hdrop : t.drop i = [] := List.drop_eq_nil_of_le (by omega)
    rw [hdrop] at hslice
    simp at hslice
  obtain ⟨c, hg, hlow⟩ : ∃ c, t.get? i = some c ∧ asciiLower c = '@' := by
    rw [List.drop_eq_getElem_cons hlt] at hslice
    have hkwlen : kw.length ≠ 0 := by
      intro h0
      rw [List.eq_nil_of_length_eq_zero h0] at hkw
      simp at hkw
    cases hl : kw.length with
    | zero => exact absurd hl hkwlen
    | succ n =>
      rw [hl] at hslice
      simp only [List.take_succ_cons, List.map_cons, List.cons.injEq] at hslice
      exact ⟨t[i], by rw [List.get?_eq_getElem? , List.getElem?_eq_getElem hlt], hslice.1⟩
  have hw : wordAt t i = false := by
    unfold wordAt
    rw [hg]
    exact asciiLower_at_sign c hlow
  unfold boundaryB at hb1
  rw [hw] at hb1
  cases i with
  | zero => simp [prevWord] at hb1
  | succ j =>
    refine ⟨j, c, rfl, ?_, hg, hlow⟩
    simpa [prevWord] using hb1

/-- Claim C10 (amended): the configured keywords `@State`, `@Binding` and
`@ObservedObject` are matchable, but only at positions where the `@` is
immediately preceded by a word character (as in `foo@State`); with `@` at
the start of the text or after whitespace — the usual attribute position in
a Swift diff — they can never match, because `\b` cannot hold between a
non-word character and `@`. -/
theorem C10_at_keyword_match (t : List Char) (kw : String)
    (hkw : kw ∈ ["@State", "@Binding", "@ObservedObject"])
    (h : kwMatchL t kw.data = true) :
    ∃ j c, wordAt t j = true ∧ t.get? (j + 1) = some c ∧ asciiLower c = '@' := by
  have hkw3 : kw = "@State" ∨ kw = "@Binding" ∨ kw = "@ObservedObject" := by
    simpa using hkw
  unfold kwMatchL at h
  rw [List.any_eq_true] at h
  obtain ⟨i, _, hi⟩ := h
  rcases hkw3 with rfl | rfl | rfl
  · obtain ⟨j, c, _, hw, hg, hl⟩ :=
      kwAt_at_sign t "@State".data "state".data i rfl hi
    exact ⟨j, c, hw, hg, hl⟩
  · obtain ⟨j, c, _, hw, hg, hl⟩ :=
      kwAt_at_sign t "@Binding".data "binding".data i rfl hi
    exact ⟨j, c, hw, hg, hl⟩
  · obtain ⟨j, c, _, hw, hg, hl⟩ :=
      kwAt_at_sign t "@ObservedObject".data "observedobject".data i rfl hi
    exact ⟨j, c, hw, hg, hl⟩

/-- A git-diff oracle whose added line places `@State` right after a word
character. -/
def wit10Diff : String → String → String := fun _ _ => "+foo@State"

/-- Counterexample to C10 as stated: on the diff adding the line
`foo@State`, the matched irrelevant-keyword set of `analyze_file_changes`
does contain `@State` — the three `@`-keywords are not unmatchable for all
inputs, only for inputs where `@` does not follow a word character. -/
theorem C10_counterexample :
    (analyze_file_changes oracleTrue wit10Diff "Sources/ReachuCore/Widget.swift"
        "h3").getIrrelevantKeywords = ["@State"] := rfl

/-- Witness for the amended C10: `@State` matches inside `foo@State`, and
the theorem yields the forced word character before the `@`. -/
theorem C10_at_keyword_match_witness :
    "@State" ∈ ["@State", "@Binding", "@ObservedObject"] ∧
    kwMatchL "foo@State".data "@State".data = true ∧
    (∃ j c, wordAt "foo@State".data j = true ∧
      "foo@State".data.get? (j + 1) = some c ∧ asciiLower c = '@') :=
  ⟨by decide, by decide,
    C10_at_keyword_match "foo@State".data "@State" (by decide) (by decide)⟩

/-- If `t` starts with `pre ++ s2` then `s2` occurs in `t`. -/
theorem startsWith_drop_right (pre : List Char) :
    ∀ (t s2 : List Char), listStartsWith t (pre ++ s2) = true → containsSubL t s2 = true := by
  induction pre with
  | nil =>
    intro t s2 h
    rw [List.nil_append] at h
    cases t with
    | nil => exact h
    | cons a t2 =>
      unfold containsSubL
      rw [h]
      simp
  | cons c pre ih =>
    intro t s2 h
    cases t with
    | nil =>
      rw [List.cons_append] at h
      exact absurd h (by unfold listStartsWith; simp)
    | cons a t2 =>
      rw [List.cons_append] at h
      unfold listStartsWith at h
      simp only [Bool.and_eq_true] at h
      unfold containsSubL
      rw [ih t2 s2 h.2]
      simp

/-- A substring occurrence of `pre ++ s2` yields one of `s2` (used for
`"last monday"` versus `"monday"`). -/
theorem containsSub_drop_left (pre s2 : List Char) :
    ∀ t : List Char, containsSubL t (pre ++ s2) = true → containsSubL t s2 = true := by
  intro t
  induction t with
  | nil =>
    intro h
    exact startsWith_drop_right pre [] s2 h
  | cons a rest ih =>
    intro h
    unfold containsSubL at h
    rcases (Bool.or_eq_true _ _).mp h with h1 | h2
    · exact startsWith_drop_right pre (a :: rest) s2 h1
    · show containsSubL (a :: rest) s2 = true
      unfold containsSubL
      rw [ih h2]
      simp

/-! ## Time-expression parsing (`parse_date_since` of
`detect_swift_changes.py`)

`datetime.now()` is modelled as the current day number (days since
1970-01-01); subtracting a `timedelta` of whole days and formatting with
`strftime('%Y-%m-%d')` only ever uses the date part. -/

/-- Proleptic-Gregorian civil date `(year, month, day)` from a day number
relative to 1970-01-01 (Howard Hinnant's `civil_from_days` algorithm, with
floor division). -/
def civilFromDays (z0 : Int) : Int × Int × Int :=
  let z := z0 + 719468
  let era := Int.fdiv z 146097
  let doe := z - era * 146097
  let yoe := Int.fdiv (doe - Int.fdiv doe 1460 + Int.fdiv doe 36524 - Int.fdiv doe 146096) 365
  let y := yoe + era * 400
  let doy := doe - (365 * yoe + Int.fdiv yoe 4 - Int.fdiv yoe 100)
  let mp := Int.fdiv (5 * doy + 2) 153
  let d := doy - Int.fdiv (153 * mp + 2) 5 + 1
  let m := mp + (if mp < 10 then 3 else (-9 : Int))
  (y + (if m ≤ 2 then 1 else 0), m, d)

/-- Two-digit zero padding of `strftime('%m')` / `strftime('%d')`. -/
def pad2 (n : Int) : String := if n < 10 then "0" ++ toString n else toString n

/-- Four-digit zero padding of `strftime('%Y')`. -/
def pad4 (n : Int) : String :=
  if n < 10 then "000" ++ toString n
  else if n < 100 then "00" ++ toString n
  else if n < 1000 then "0" ++ toString n
  else toString n

/-- `strftime('%Y-%m-%d')` of the date `z` days after 1970-01-01. -/
def fmtYMD (z : Int) : String :=
  pad4 (civilFromDays z).1 ++ "-" ++ pad2 (civilFromDays z).2.1 ++ "-" ++ pad2 (civilFromDays z).2.2

/-- `int(re.search(r'(\d+)', s).group(1))` when a digit exists: the first
maximal digit run, as a number; `none` when `re.search` returns `None` (and
`.group` would raise `AttributeError`). -/
def firstNat (t : List Char) : Option Nat :=
  let ds := (t.dropWhile (fun c => !c.isDigit)).takeWhile Char.isDigit
  if ds.isEmpty then none
  else some (ds.foldl (fun a c => 10 * a + (c.toNat - 48)) 0)

/-- Python `datetime.weekday()`: Monday is 0; day 0 (1970-01-01) was a
Thursday. -/
def pyWeekday (now : Nat) : Nat := (now + 3) % 7

/-- `parse_date_since(date_str)` of `detect_swift_changes.py`, with the
current date passed explicitly. In the source's final branch both the
successful `strptime` parse and the `ValueError` handler return `date_str`
unchanged, so the branch is a plain pass-through here. -/
def parse_date_since (now : Nat) (date_str : String) : Except String String :=
  let lo := strLower date_str
  if containsSub lo "last monday" || containsSub lo "monday" then
    let dsm := pyWeekday now % 7
    let dsm := if dsm = 0 then 7 else dsm
    .ok (fmtYMD ((now : Int) - dsm))
  else if containsSub lo "days ago" then
    match firstNat lo.data with
    | none => .error "AttributeError: NoneType object has no attribute group"
    | some days => .ok (fmtYMD ((now : Int) - days))
  else if containsSub lo "weeks ago" then
    match firstNat lo.data with
    | none => .error "AttributeError: NoneType object has no attribute group"
    | some weeks => .ok (fmtYMD ((now : Int) - 7 * weeks))
  else
    .ok date_str

/-- A string containing a digit always yields a number for
`re.search(r'(\d+)', s)`. -/
theorem firstNat_of_digit (t : List Char) (h : t.any Char.isDigit = true) :
    ∃ n, firstNat t = some n := by
  unfold firstNat
  have hne : t.dropWhile (fun c => !c.isDigit) ≠ [] := by
    rw [ne_eq, List.dropWhile_eq_nil_iff]
    intro hall
    rw [List.any_eq_true] at h
    obtain ⟨c, hc, hd⟩ := h
    have := hall c hc
    simp [hd] at this
  have hhead : ∃ c rest, t.dropWhile (fun c => !c.isDigit) = c :: rest ∧ c.isDigit = true := by
    cases hd : t.dropWhile (fun c => !c.isDigit) with
    | nil => exact absurd hd hne
    | cons c rest =>
      refine ⟨c, rest, rfl, ?_⟩
      have := List.head?_dropWhile_not (fun c => !c.isDigit) t
      rw [hd] at this
      simpa using this
  obtain ⟨c, rest, hd, hdig⟩ := hhead
  rw [hd]
  simp [List.takeWhile_cons, hdig]

/-- Claim C9 (amended): `parse_date_since` returns normally on every input
that contains a Monday literal, or contains a digit, or mentions neither
"days ago" nor "weeks ago"; and every input matching none of the recognized
forms is passed through unmodified. (As stated — *never* raises — the claim
fails: an input containing "days ago" or "weeks ago" but no digit reaches
`.group(1)` on a failed search and raises `AttributeError`, see
`C9_counterexample`.) -/
theorem C9_parse_date_since (now : Nat) (s : String) :
    ((containsSub (strLower s) "monday" = true ∨
      (strLower s).data.any Char.isDigit = true ∨
      (containsSub (strLower s) "days ago" = false ∧
       containsSub (strLower s) "weeks ago" = false)) →
      ∃ r, parse_date_since now s = .ok r) ∧
    (containsSub (strLower s) "monday" = false →
      containsSub (strLower s) "days ago" = false →
      containsSub (strLower s) "weeks ago" = false →
      parse_date_since now s = .ok s) := by
  constructor
  · intro h
    unfold parse_date_since
    by_cases hm : containsSub (strLower s) "monday" = true
    · simp [hm]
    · simp only [hm, Bool.or_false] at *
      by_cases hd : containsSub (strLower s) "days ago" = true
      · have hdig : (strLower s).data.any Char.isDigit = true := by
          rcases h with h | h | h
          · exact absurd h hm
          · exact h
          · exact absurd hd (by simp [h.1])
        obtain ⟨n, hn⟩ := firstNat_of_digit _ hdig
        cases hlm : containsSub (strLower s) "last monday" <;> simp [hlm, hm, hd, hn]
      · by_cases hw : containsSub (strLower s) "weeks ago" = true
        · have hdig : (strLower s).data.any Char.isDigit = true := by
            rcases h with h | h | h
            · exact absurd h hm
            · exact h
            · exact absurd hw (by simp [h.2])
          obtain ⟨n, hn⟩ := firstNat_of_digit _ hdig
          cases hlm : containsSub (strLower s) "last monday" <;>
            simp [hlm, hm, hd, hw, hn]
        · cases hlm : containsSub (strLower s) "last monday" <;>
            simp [hlm, hm, hd, hw]
  · intro hm hd hw
    have hlm : containsSub (strLower s) "last monday" = false := by
      cases hc : containsSub (strLower s) "last monday"
      · rfl
      · exfalso
        have : containsSubL (strLower s).data "monday".data = true :=
          containsSub_drop_left "last ".data "monday".data (strLower s).data hc
        rw [show containsSub (strLower s) "monday" = containsSubL (strLower s).data "monday".data from rfl, this] at hm
        exact Bool.true_eq_false.mp hm
    unfold parse_date_since
    simp [hlm, hm, hd, hw]

/-- Counterexample to C9 as stated: the input `"days ago"` (no digit)
raises `AttributeError` instead of returning normally. -/
theorem C9_counterexample :
    parse_date_since 20354 "days ago" =
      .error "AttributeError: NoneType object has no attribute group" := rfl

/-- Witness for the amended C9: `"7 days ago"` parses (it contains a
digit), and `"2025-01-15"` is passed through unchanged. -/
theorem C9_parse_date_since_witness :
    ((containsSub (strLower "7 days ago") "monday" = true ∨
      (strLower "7 days ago").data.any Char.isDigit = true ∨
      (containsSub (strLower "7 days ago") "days ago" = false ∧
       containsSub (strLower "7 days ago") "weeks ago" = false)) ∧
     (∃ r, parse_date_since 20354 "7 days ago" = .ok r)) ∧
    (containsSub (strLower "2025-01-15") "monday" = false ∧
     parse_date_since 20354 "2025-01-15" = .ok "2025-01-15") :=
  ⟨⟨Or.inr (Or.inl (by decide)),
    (C9_parse_date_since 20354 "7 days ago").1 (Or.inr (Or.inl (by decide)))⟩,
   ⟨by decide,
    (C9_parse_date_since 20354 "2025-01-15").2 (by decide) (by decide) (by decide)⟩⟩

/-! ## Commit verdict aggregator (`analyze_commit_for_kotlin`)

The version-control read interface is an explicit oracle bundle. -/

/-- Version-control oracle: the (already `strip()`-ed) outputs of the git
commands issued by `analyze_commit_for_kotlin` (an empty string is
`run_git_command`'s encoding of "no output or git error"), plus
`os.path.exists` on the origin checkout. -/
structure GitRepo where
  showStat : String → String
  logBody : String → String
  nameStatus : String → String
  diffOf : String → String → String
  swiftExists : String → Bool

/-- The `commit_data` dict. -/
structure CommitData where
  hash : String
  author : String
  email : String
  date : String
  message : String
  message_full : String
  message_body : String
deriving Repr, DecidableEq

/-- An entry of `relevant_files`. In the source the Kotlin check is stored
under the `kotlin_check` key of the per-file analysis dict; it is a sibling
field here. -/
structure RelevantFile where
  path : String
  status : String
  analysis : FileAnalysis
  kotlin_check : KotlinInfo
deriving Repr, DecidableEq

/-- An entry of `irrelevant_files`. -/
structure IrrelevantFile where
  path : String
  status : String
  reason : String
deriving Repr, DecidableEq

/-- Result of `analyze_commit_for_kotlin`: the commit-not-found early return
carries only `relevant` and `reason`. -/
inductive CommitAnalysis where
  | notFound (relevant : Bool) (reason : String)
  | full (relevant : Bool) (commit : CommitData)
      (relevant_files : List RelevantFile)
      (irrelevant_files : List IrrelevantFile) (reason : String)
deriving Repr, DecidableEq

/-- The `relevant` entry. -/
def CommitAnalysis.relevantFlag : CommitAnalysis → Bool
  | .notFound r _ => r
  | .full r _ _ _ _ => r

/-- The `relevant_files` entry (absent, hence empty, on the early return). -/
def CommitAnalysis.relevantFiles : CommitAnalysis → List RelevantFile
  | .notFound _ _ => []
  | .full _ _ rfs _ _ => rfs

/-- `line[0] if line else ''`. -/
def lineStatus (l : String) : String :=
  if l = "" then "" else ⟨l.data.take 1⟩

/-- `line.split('\t', 1)[1] if '\t' in line else line[2:]`. -/
def lineFilePath (l : String) : String :=
  if containsSub l "\t" then afterFirstTab l else l.drop 2

/-- The per-line decision of the per-file loop: blank lines and
path-irrelevant files are dropped (only content-irrelevant files are
recorded as irrelevant), and path-plus-content-relevant files become
candidates for the Kotlin check. -/
inductive FileVerdict where
  | skip
  | irrelevantEntry (e : IrrelevantFile)
  | relevantEntry (path status : String) (fa : FileAnalysis)

/-- Classify one `--name-status` line. -/
def classifyLine (repo : GitRepo) (commit_hash l : String) : FileVerdict :=
  if pyStrip l = "" then .skip
  else if is_relevant_for_kotlin (lineFilePath l) then
    let fa := analyze_file_changes repo.swiftExists repo.diffOf (lineFilePath l) commit_hash
    if fa.getRelevant then .relevantEntry (lineFilePath l) (lineStatus l) fa
    else .irrelevantEntry { path := lineFilePath l, status := lineStatus l,
                            reason := fa.getReason }
  else .skip

/-- The per-file loop of `analyze_commit_for_kotlin` over the lines of
`git show --name-status`: relevant files get a Kotlin implementation check
(whose exception, see C3, aborts the whole analysis as in Python). -/
def processFiles (repo : GitRepo) (fs : FS) (commit_hash : String) :
    List String → Except String (List RelevantFile × List IrrelevantFile)
  | [] => .ok ([], [])
  | l :: ls =>
    match classifyLine repo commit_hash l with
    | .skip => processFiles repo fs commit_hash ls
    | .irrelevantEntry e =>
      match processFiles repo fs commit_hash ls with
      | .error e2 => .error e2
      | .ok (rfs, irfs) => .ok (rfs, e :: irfs)
    | .relevantEntry file_path status fa =>
      match check_kotlin_implementation fs file_path fa.getCodeChanges with
      | .error e2 => .error e2
      | .ok kc =>
        match processFiles repo fs commit_hash ls with
        | .error e2 => .error e2
        | .ok (rfs, irfs) =>
          .ok ({ path := file_path, status := status, analysis := fa,
                 kotlin_check := kc } :: rfs, irfs)

/-- `analyze_commit_for_kotlin(commit_hash)`. -/
def analyze_commit_for_kotlin (repo : GitRepo) (fs : FS) (commit_hash : String) :
    Except String CommitAnalysis :=
  let commit_info := repo.showStat commit_hash
  if commit_info = "" then
    .ok (.notFound false "Commit no encontrado")
  else
    let lines := strSplitOn commit_info "\n"
    let header := lines.headD ""
    let parts := if containsSub header "|" then strSplitOn header "|" else []
    let full_message_output := repo.logBody commit_hash
    let full_message := if full_message_output = "" then "" else pyStrip full_message_output
    let message_lines := strSplitOn full_message "\n"
    let subject := message_lines.headD ""
    let body := if message_lines.length > 1 then
        pyStrip (String.intercalate "\n" (message_lines.drop 1))
      else ""
    let commit_data : CommitData :=
      { hash := parts.getD 0 commit_hash,
        author := parts.getD 1 "unknown",
        email := parts.getD 2 "",
        date := parts.getD 3 "",
        message := subject,
        message_full := full_message,
        message_body := body }
    let files_output := repo.nameStatus commit_hash
    match processFiles repo fs commit_hash (strSplitOn files_output "\n") with
    | .error e => .error e
    | .ok (relevant_files, irrelevant_files) =>
      let needs_implementation :=
        relevant_files.any (fun f => f.kotlin_check.needs_implementation)
      let is_relevant := decide (relevant_files.length > 0) && needs_implementation
      let needCount :=
        (relevant_files.filter (fun f => f.kotlin_check.needs_implementation)).length
      .ok (.full is_relevant commit_data relevant_files irrelevant_files
        (toString relevant_files.length ++ " archivos relevantes, " ++
          toString irrelevant_files.length ++ " irrelevantes" ++
          (if !relevant_files.isEmpty then
            " (" ++ toString needCount ++ " necesitan implementación)"
          else "")))

/-- A line classified as a relevant entry carries a path that passed the
path filter. -/
theorem classifyLine_relevant (repo : GitRepo) (ch l : String)
    (fp st : String) (fa : FileAnalysis)
    (h : classifyLine repo ch l = .relevantEntry fp st fa) :
    is_relevant_for_kotlin fp = true := by
  unfold classifyLine at h
  split at h
  · exact FileVerdict.noConfusion h
  · split at h
    · rename_i hrel
      simp only [] at h
      split at h
      · injection h with h1 h2 h3
        subst h1
        exact hrel
      · exact FileVerdict.noConfusion h
    · exact FileVerdict.noConfusion h

/-- Every member of the `relevant_files` list produced by the per-file loop
is path-relevant. -/
theorem processFiles_path_relevant (repo : GitRepo) (fs : FS) (ch : String) :
    ∀ (ls : List String) (rfs : List RelevantFile) (irfs : List IrrelevantFile),
    processFiles repo fs ch ls = .ok (rfs, irfs) →
    ∀ rf ∈ rfs, is_relevant_for_kotlin rf.path = true := by
  intro ls
  induction ls with
  | nil =>
    intro rfs irfs h rf hrf
    unfold processFiles at h
    simp only [Except.ok.injEq, Prod.mk.injEq] at h
    obtain ⟨h1, _⟩ := h
    subst h1
    simp at hrf
  | cons l ls ih =>
    intro rfs irfs h rf hrf
    unfold processFiles at h
    cases hcl : classifyLine repo ch l with
    | skip =>
      rw [hcl] at h
      exact ih rfs irfs h rf hrf
    | irrelevantEntry e =>
      rw [hcl] at h
      cases hrec : processFiles repo fs ch ls with
      | error e2 => rw [hrec] at h; exact Except.noConfusion h
      | ok pr =>
        obtain ⟨rfs2, irfs2⟩ := pr
        rw [hrec] at h
        simp only [Except.ok.injEq, Prod.mk.injEq] at h
        obtain ⟨h1, _⟩ := h
        subst h1
        exact ih rfs2 irfs2 hrec rf hrf
    | relevantEntry fp st fa =>
      rw [hcl] at h
      simp only [] at h
      cases hkc : check_kotlin_implementation fs fp fa.getCodeChanges with
      | error e2 => rw [hkc] at h; exact Except.noConfusion h
      | ok kc =>
        rw [hkc] at h
        cases hrec : processFiles repo fs ch ls with
        | error e2 => rw [hrec] at h; exact Except.noConfusion h
        | ok pr =>
          obtain ⟨rfs2, irfs2⟩ := pr
          rw [hrec] at h
          simp only [Except.ok.injEq, Prod.mk.injEq] at h
          obtain ⟨h1, _⟩ := h
          subst h1
          rcases List.mem_cons.mp hrf with hrf1 | hrf2
          · subst hrf1
            exact classifyLine_relevant repo ch l fp st fa hcl
          · exact ih rfs2 irfs2 hrec rf hrf2

/-- Claim C1: for every commit analysis the aggregator produces, the
commit-level `relevant` flag is true iff the analysis records at least one
FileChange that is path-relevant and has `needs_implementation = true` (the
entries of `relevant_files`, which carry the per-file Kotlin check). -/
theorem C1_aggregation (repo : GitRepo) (fs : FS) (ch : String)
    (res : CommitAnalysis)
    (h : analyze_commit_for_kotlin repo fs ch = .ok res) :
    (res.relevantFlag = true ↔
      ∃ rf ∈ res.relevantFiles,
        is_relevant_for_kotlin rf.path = true ∧
        rf.kotlin_check.needs_implementation = true) := by
  unfold analyze_commit_for_kotlin at h
  by_cases hci : repo.showStat ch = ""
  · simp only [hci, if_true, if_pos, Except.ok.injEq] at h
    subst h
    simp [CommitAnalysis.relevantFlag, CommitAnalysis.relevantFiles]
  · simp only [hci, if_false, if_neg, Except.ok.injEq] at h
    cases hpf : processFiles repo fs ch (strSplitOn (repo.nameStatus ch) "\n") with
    | error e =>
      rw [hpf] at h
      exact Except.noConfusion h
    | ok pr =>
      obtain ⟨rfs, irfs⟩ := pr
      rw [hpf] at h
      simp only [Except.ok.injEq] at h
      subst h
      simp only [CommitAnalysis.relevantFlag, CommitAnalysis.relevantFiles]
      constructor
      · intro hb
        rw [Bool.and_eq_true, List.any_eq_true] at hb
        obtain ⟨_, rf, hmem, hneeds⟩ := hb
        exact ⟨rf, hmem,
          processFiles_path_relevant repo fs ch _ rfs irfs hpf rf hmem, hneeds⟩
      · intro hex
        obtain ⟨rf, hmem, _, hneeds⟩ := hex
        rw [Bool.and_eq_true, List.any_eq_true]
        refine ⟨?_, rf, hmem, hneeds⟩
        have := List.length_pos.mpr (List.ne_nil_of_mem hmem)
        simpa using this

/-- A one-commit repository oracle: one modified portable-surface file
whose diff adds `public struct Widget`. -/
def wit1Repo : GitRepo :=
  { showStat := fun _ => "abc123|Ann|ann@x|2025-01-02|Add widget",
    logBody := fun _ => "Add widget",
    nameStatus := fun _ => "M\tSources/ReachuCore/Widget.swift",
    diffOf := fun _ _ => "+public struct Widget",
    swiftExists := fun _ => true }

/-- The analysis the aggregator produces for `wit1Repo` against the
destination snapshot with no SDK root. -/
def wit1Res : CommitAnalysis :=
  (analyze_commit_for_kotlin wit1Repo fsNoRoot "abc123").toOption.getD (.notFound false "")

/-- Witness for C1: the concrete analysis of `wit1Repo` is relevant, and
the aggregation iff holds for it (the single relevant file needs
implementation because the destination root is absent). -/
theorem C1_aggregation_witness :
    analyze_commit_for_kotlin wit1Repo fsNoRoot "abc123" = .ok wit1Res ∧
    wit1Res.relevantFlag = true ∧
    (wit1Res.relevantFlag = true ↔
      ∃ rf ∈ wit1Res.relevantFiles,
        is_relevant_for_kotlin rf.path = true ∧
        rf.kotlin_check.needs_implementation = true) :=
  ⟨rfl, rfl, C1_aggregation wit1Repo fsNoRoot "abc123" wit1Res rfl⟩
